/-
Verification of the static-nix-cache core: narinfo fingerprint/signing
protocol (src/signing.js), the narinfo re-signing step of the upload route
(src/routes/cache.js), and the storage backends (src/storage/github-releases.js,
the local filesystem backend, the S3 backend).

The JavaScript is embedded shallowly: pure functions become Lean functions,
network/filesystem effects become explicit oracle parameters (page responses,
API responses, filesystem outcomes), and JavaScript exceptions become
`Except` results.  Byte buffers are lists of natural numbers (< 256).
-/
import Mathlib

namespace StaticNixCache

/-! ## Narinfo record and fingerprint (src/signing.js) -/

/-- A narinfo record as documented for `fingerprint` in src/signing.js:
`storePath`, `narHash` (e.g. "sha256:..."), `narSize` (number), and the
ordered `references` list of full store paths. -/
structure Narinfo where
  storePath : String
  narHash : String
  narSize : Nat
  references : List String
  deriving Repr, DecidableEq

/-- `fingerprint(narinfo)` from src/signing.js lines 29-32:
`` `1;${narinfo.storePath};${narinfo.narHash};${narinfo.narSize};${refs}` ``
where `refs = (narinfo.references || []).join(',')`. -/
def fingerprint (n : Narinfo) : String :=
  let refs := String.intercalate "," n.references
  s!"1;{n.storePath};{n.narHash};{n.narSize};{refs}"

/-- C2: for every narinfo record, `fingerprint` returns exactly
`"1;" ++ storePath ++ ";" ++ narHash ++ ";" ++ narSize (decimal) ++ ";" ++
references joined by ","`; it is a total function (never fails), and for
empty `references` the result ends in `";" ++ narSize ++ ";"`, i.e. a
trailing empty field. -/
theorem fingerprint_format (n : Narinfo) :
    fingerprint n =
      "1;" ++ n.storePath ++ ";" ++ n.narHash ++ ";" ++ toString n.narSize
        ++ ";" ++ String.intercalate "," n.references
    ∧ (n.references = [] →
        fingerprint n =
          ("1;" ++ n.storePath ++ ";" ++ n.narHash ++ ";" ++ toString n.narSize
            ++ ";")) := by
  constructor
  · simp [fingerprint, toString, String.append_assoc]
  · intro h
    simp [fingerprint, h, toString, String.append_assoc, String.intercalate]

/-- Witness for C2 at a concrete record (the spec's worked example shape). -/
theorem fingerprint_format_witness :
    fingerprint ⟨"/nix/store/aaaa-example-1.0", "sha256:aaaa", 12345, []⟩ =
        "1;/nix/store/aaaa-example-1.0;sha256:aaaa;12345;"
    ∧ fingerprint ⟨"/nix/store/aaaa-example-1.0", "sha256:aaaa", 12345,
          ["/nix/store/aaaa-example-1.0"]⟩ =
        "1;/nix/store/aaaa-example-1.0;sha256:aaaa;12345;/nix/store/aaaa-example-1.0" := by
  refine ⟨?_, ?_⟩
  · exact (fingerprint_format ⟨"/nix/store/aaaa-example-1.0", "sha256:aaaa", 12345, []⟩).2 rfl
  · have h := (fingerprint_format ⟨"/nix/store/aaaa-example-1.0", "sha256:aaaa", 12345,
      ["/nix/store/aaaa-example-1.0"]⟩).1
    rw [h]
    rfl

/-! ## Key parsing and base64 (src/signing.js `parseKey`, Node `Buffer`) -/

/-- Errors raised by the signing module: `parseKey`'s explicit
`Invalid Nix key format` throw, and the error Node's `crypto` raises when
the DER built from the decoded key bytes is malformed. -/
inductive SignError where
  | invalidKeyFormat
  | invalidKeyBytes
  deriving Repr, DecidableEq

/-- `keyString.indexOf(':')` plus the two `slice` calls of `parseKey`
(src/signing.js lines 11-16): `none` when there is no colon, otherwise the
characters before the first colon and the characters after it. -/
def splitFirstColon : List Char → Option (List Char × List Char)
  | [] => none
  | c :: cs =>
    if c = ':' then some ([], cs)
    else (splitFirstColon cs).map (fun p => (c :: p.1, p.2))

/-- Value of one base64 character, as accepted by Node's lenient base64
decoder (standard and URL-safe alphabets); `none` for characters outside
the alphabet (Node skips them). -/
def b64Val (c : Char) : Option Nat :=
  if 'A' ≤ c ∧ c ≤ 'Z' then some (c.toNat - 'A'.toNat)
  else if 'a' ≤ c ∧ c ≤ 'z' then some (c.toNat - 'a'.toNat + 26)
  else if '0' ≤ c ∧ c ≤ '9' then some (c.toNat - '0'.toNat + 52)
  else if c = '+' ∨ c = '-' then some 62
  else if c = '/' ∨ c = '_' then some 63
  else none

/-- Repack a list of 6-bit values into 8-bit bytes, dropping incomplete
trailing bits (Node `Buffer.from(s, 'base64')` group semantics). -/
def sextetsToBytes : List Nat → List Nat
  | a :: b :: c :: d :: rest =>
    (a * 4 + b / 16) :: ((b % 16) * 16 + c / 4) :: ((c % 4) * 64 + d)
      :: sextetsToBytes rest
  | [a, b, c] => [a * 4 + b / 16, (b % 16) * 16 + c / 4]
  | [a, b] => [a * 4 + b / 16]
  | _ => []

/-- Node's `Buffer.from(str, 'base64')`: characters outside the base64
alphabet (including `=` padding) are skipped, then 6-bit groups are packed
into bytes. -/
def base64Decode (s : String) : List Nat :=
  sextetsToBytes (s.data.filterMap b64Val)

/-- The standard base64 alphabet character for a 6-bit value
(Node `buf.toString('base64')`). -/
def b64Char (n : Nat) : Char :=
  ("ABCDEFGHIJKLMNOPQRSTUVWXYZabcdefghijklmnopqrstuvwxyz0123456789+/".data).getD n 'A'

/-- Standard padded base64 encoding of a byte list
(Node `buf.toString('base64')`). -/
def base64EncodeChars : List Nat → List Char
  | a :: b :: c :: rest =>
    b64Char (a / 4) :: b64Char ((a % 4) * 16 + b / 16)
      :: b64Char ((b % 16) * 4 + c / 64) :: b64Char (c % 64)
      :: base64EncodeChars rest
  | [a, b] =>
    [b64Char (a / 4), b64Char ((a % 4) * 16 + b / 16), b64Char ((b % 16) * 4), '=']
  | [a] => [b64Char (a / 4), b64Char ((a % 4) * 16), '=', '=']
  | [] => []

def base64Encode (bytes : List Nat) : String :=
  String.mk (base64EncodeChars bytes)

/-- Parsed `<keyname>:<base64>` key string: the name before the first colon
and the decoded key bytes. -/
structure ParsedKey where
  name : String
  key : List Nat
  deriving Repr, DecidableEq

/-- `parseKey(keyString)` from src/signing.js lines 10-18: throws
`Invalid Nix key format` when the string has no colon, otherwise splits on
the first colon and base64-decodes the remainder. -/
def parseKey (keyString : String) : Except SignError ParsedKey :=
  match splitFirstColon keyString.data with
  | none => .error .invalidKeyFormat
  | some (name, rest) => .ok ⟨String.mk name, base64Decode (String.mk rest)⟩

/-! ## Sign and verify (src/signing.js `signNarinfo`, `verifyNarinfo`)

The ed25519 primitives of Node's `crypto` module are external to the
repository, so they are abstracted as an oracle: `edSign` maps a 32-byte
seed and a message to signature bytes, `edVerify` maps public-key bytes,
a message and signature bytes to a boolean.  `crypto.verify` returns a
boolean for any byte inputs (it does not throw on a mismatch). -/

structure Crypto where
  edSign : List Nat → String → List Nat
  edVerify : List Nat → String → List Nat → Bool

/-- Node `crypto.createPrivateKey` on the DER the code builds
(`oid ++ seed` with a header hard-coding a 32-byte seed, src/signing.js
lines 51-56): the DER is well-formed exactly when the seed is 32 bytes;
otherwise `createPrivateKey` throws. -/
def createPrivateKeySeed (seed : List Nat) : Except SignError (List Nat) :=
  if seed.length = 32 then .ok seed else .error .invalidKeyBytes

/-- Node `crypto.createPublicKey` on the SPKI DER the code builds
(`spkiHeader ++ pubkeyBytes` with a header hard-coding 32 key bytes,
src/signing.js lines 73-77): well-formed exactly when the key is
32 bytes. -/
def createPublicKeyBytes (pubkeyBytes : List Nat) : Except SignError (List Nat) :=
  if pubkeyBytes.length = 32 then .ok pubkeyBytes else .error .invalidKeyBytes

/-- `signNarinfo(narinfo, privateKeyString)` from src/signing.js lines
44-60: parse the key, take the first 32 bytes as seed when the decoded key
is 64 bytes, build the private key (DER validity modelled by
`createPrivateKeySeed`), sign the fingerprint, and return
`<name>:<base64 signature>`. -/
def signNarinfo (c : Crypto) (n : Narinfo) (privateKeyString : String) :
    Except SignError String :=
  match parseKey privateKeyString with
  | .error e => .error e
  | .ok pk =>
    match createPrivateKeySeed
        (if pk.key.length = 64 then pk.key.take 32 else pk.key) with
    | .error e => .error e
    | .ok seed => .ok (pk.name ++ ":" ++ base64Encode (c.edSign seed (fingerprint n)))

/-- `verifyNarinfo(narinfo, sigString, publicKeyString)` from
src/signing.js lines 70-81: parse the public key, build the public key
object (DER validity modelled by `createPublicKeyBytes`), parse the
signature string, and return the boolean verdict of `crypto.verify`. -/
def verifyNarinfo (c : Crypto) (n : Narinfo) (sigString publicKeyString : String) :
    Except SignError Bool :=
  match parseKey publicKeyString with
  | .error e => .error e
  | .ok pub =>
    match createPublicKeyBytes pub.key with
    | .error e => .error e
    | .ok pubBytes =>
      match parseKey sigString with
      | .error e => .error e
      | .ok sig => .ok (c.edVerify pubBytes (fingerprint n) sig.key)

/-- The component before the first colon returned by `splitFirstColon` is
the longest colon-free prefix of the input, and the input decomposes around
that first colon. -/
theorem splitFirstColon_some {cs a b : List Char}
    (h : splitFirstColon cs = some (a, b)) :
    a = cs.takeWhile (fun ch => ch ≠ ':') ∧ cs = a ++ ':' :: b := by
  induction cs generalizing a b with
  | nil => simp [splitFirstColon] at h
  | cons c rest ih =>
    by_cases hc : c = ':'
    · subst hc
      simp [splitFirstColon] at h
      obtain ⟨ha, hb⟩ := h
      subst ha; subst hb
      simp [List.takeWhile]
    · simp [splitFirstColon, hc] at h
      obtain ⟨a₁, hsc, hca⟩ := h
      obtain ⟨ha, hb⟩ := ih hsc
      subst hca
      constructor
      · simp [List.takeWhile_cons, hc, ha]
      · simpa using congrArg (fun l => c :: l) hb

/-- A concrete crypto oracle used by witnesses: deterministic stub
primitives with the right types. -/
def cryptoStub : Crypto :=
  ⟨fun _ _ => [1, 2, 3], fun _ _ _ => false⟩

/-- C7: `signNarinfo` fails (with the invalid-key-format throw of
`parseKey`, or the key error Node's `crypto` raises on a malformed DER)
exactly when the key string has no colon or its base64-decoded key
material is neither 32 nor 64 bytes; otherwise it returns
`<name>:<base64 signature>` where `name` is the substring before the first
colon, and a 64-byte decoded key is used by taking its first 32 bytes as
the signing seed. -/
theorem signNarinfo_error_conditions (c : Crypto) (n : Narinfo) (keyString : String) :
    (splitFirstColon keyString.data = none →
      signNarinfo c n keyString = .error .invalidKeyFormat)
    ∧ (∀ name rest, splitFirstColon keyString.data = some (name, rest) →
        ((base64Decode (String.mk rest)).length ≠ 32 →
         (base64Decode (String.mk rest)).length ≠ 64 →
            signNarinfo c n keyString = .error .invalidKeyBytes)
        ∧ ((base64Decode (String.mk rest)).length = 32 →
            signNarinfo c n keyString =
              .ok (String.mk (keyString.data.takeWhile (fun ch => ch ≠ ':'))
                ++ ":" ++ base64Encode
                      (c.edSign (base64Decode (String.mk rest)) (fingerprint n))))
        ∧ ((base64Decode (String.mk rest)).length = 64 →
            signNarinfo c n keyString =
              .ok (String.mk (keyString.data.takeWhile (fun ch => ch ≠ ':'))
                ++ ":" ++ base64Encode
                      (c.edSign ((base64Decode (String.mk rest)).take 32)
                        (fingerprint n))))) := by
  constructor
  · intro h
    simp [signNarinfo, parseKey, h]
  · intro name rest h
    have hname := (splitFirstColon_some h).1
    refine ⟨?_, ?_, ?_⟩
    · intro h32 h64
      simp [signNarinfo, parseKey, h, createPrivateKeySeed, h32, h64]
    · intro h32
      simp [signNarinfo, parseKey, h, createPrivateKeySeed, h32, hname]
    · intro h64
      simp [signNarinfo, parseKey, h, createPrivateKeySeed, h64,
        List.length_take, hname]

/-- Witness for C7: a key with 32 decoded zero bytes signs successfully, a
key with 16 decoded bytes fails with the key-byte error, and a colon-free
key string fails with the format error. -/
theorem signNarinfo_error_conditions_witness :
    signNarinfo cryptoStub ⟨"/p", "h", 1, []⟩
        "k:AAAAAAAAAAAAAAAAAAAAAAAAAAAAAAAAAAAAAAAAAAA=" = .ok "k:AQID"
    ∧ signNarinfo cryptoStub ⟨"/p", "h", 1, []⟩
        "k:AAAAAAAAAAAAAAAAAAAAAA==" = .error .invalidKeyBytes
    ∧ signNarinfo cryptoStub ⟨"/p", "h", 1, []⟩ "nocolon"
        = .error .invalidKeyFormat := by
  refine ⟨?_, ?_, ?_⟩
  · have h := ((signNarinfo_error_conditions cryptoStub ⟨"/p", "h", 1, []⟩
        "k:AAAAAAAAAAAAAAAAAAAAAAAAAAAAAAAAAAAAAAAAAAA=").2 ['k']
        "AAAAAAAAAAAAAAAAAAAAAAAAAAAAAAAAAAAAAAAAAAA=".data
        (by decide)).2.1 (by decide)
    rw [h]
    exact congrArg Except.ok (by decide)
  · have h := ((signNarinfo_error_conditions cryptoStub ⟨"/p", "h", 1, []⟩
        "k:AAAAAAAAAAAAAAAAAAAAAA==").2 ['k']
        "AAAAAAAAAAAAAAAAAAAAAA==".data
        (by decide)).1 (by decide) (by decide)
    exact h
  · exact (signNarinfo_error_conditions cryptoStub ⟨"/p", "h", 1, []⟩ "nocolon").1
      (by decide)

/-- C6: `verifyNarinfo` fails exactly under key-string conditions — no
colon in the public-key string, decoded public-key bytes of the wrong
length, or a signature string with no colon (an ill-structured signature).
For a structurally valid signature and a well-formed public key it returns
the boolean verdict of the crypto primitive, so a cryptographically
non-matching signature, tampered record, or wrong key yields `.ok false`,
never an error. -/
theorem verifyNarinfo_error_conditions (c : Crypto) (n : Narinfo)
    (sigString publicKeyString : String) :
    (splitFirstColon publicKeyString.data = none →
      verifyNarinfo c n sigString publicKeyString = .error .invalidKeyFormat)
    ∧ (∀ pname prest, splitFirstColon publicKeyString.data = some (pname, prest) →
        ((base64Decode (String.mk prest)).length ≠ 32 →
          verifyNarinfo c n sigString publicKeyString = .error .invalidKeyBytes)
        ∧ ((base64Decode (String.mk prest)).length = 32 →
            (splitFirstColon sigString.data = none →
              verifyNarinfo c n sigString publicKeyString
                = .error .invalidKeyFormat)
            ∧ (∀ sname srest, splitFirstColon sigString.data = some (sname, srest) →
                verifyNarinfo c n sigString publicKeyString =
                  .ok (c.edVerify (base64Decode (String.mk prest)) (fingerprint n)
                        (base64Decode (String.mk srest)))
                ∧ (c.edVerify (base64Decode (String.mk prest)) (fingerprint n)
                      (base64Decode (String.mk srest)) = false →
                    verifyNarinfo c n sigString publicKeyString = .ok false)))) := by
  constructor
  · intro h
    simp [verifyNarinfo, parseKey, h]
  · intro pname prest hp
    constructor
    · intro h32
      simp [verifyNarinfo, parseKey, hp, createPublicKeyBytes, h32]
    · intro h32
      constructor
      · intro hs
        simp [verifyNarinfo, parseKey, hp, hs, createPublicKeyBytes, h32]
      · intro sname srest hs
        constructor
        · simp [verifyNarinfo, parseKey, hp, hs, createPublicKeyBytes, h32]
        · intro hv
          simp [verifyNarinfo, parseKey, hp, hs, createPublicKeyBytes, h32, hv]

/-- Witness for C6: with a well-formed 32-byte public key and a
structurally valid signature string, the stub oracle's `false` verdict is
returned as `.ok false`; a colon-free public key fails with the format
error. -/
theorem verifyNarinfo_error_conditions_witness :
    verifyNarinfo cryptoStub ⟨"/p", "h", 1, []⟩ "k:AQID"
        "k:AAAAAAAAAAAAAAAAAAAAAAAAAAAAAAAAAAAAAAAAAAA=" = .ok false
    ∧ verifyNarinfo cryptoStub ⟨"/p", "h", 1, []⟩ "k:AQID" "nocolon"
        = .error .invalidKeyFormat := by
  constructor
  · exact ((((verifyNarinfo_error_conditions cryptoStub ⟨"/p", "h", 1, []⟩
      "k:AQID" "k:AAAAAAAAAAAAAAAAAAAAAAAAAAAAAAAAAAAAAAAAAAA=").2 ['k']
      "AAAAAAAAAAAAAAAAAAAAAAAAAAAAAAAAAAAAAAAAAAA=".data (by decide)).2
      (by decide)).2 ['k'] "AQID".data (by decide)).2 (by decide)
  · exact (verifyNarinfo_error_conditions cryptoStub ⟨"/p", "h", 1, []⟩
      "k:AQID" "nocolon").1 (by decide)

/-! ## GitHub Releases backend (src/storage/github-releases.js)

Remote state is abstracted as oracles: `PageResp` is the response of one
asset-listing page request (`fetch` of
`/releases/<id>/assets?per_page=100&page=<n>`), and the delete call's
success is a predicate on the asset id.  `created_at` timestamps are
modelled as milliseconds since the epoch (the value `new Date(...)`
compares by). -/

/-! ### Character-level string primitives

The JavaScript string operations used by the storage layer
(`split('\n')`, `startsWith`, `endsWith`, `trim`, `trimEnd`, `slice`) are
modelled directly on character lists, so that every definition reduces in
the kernel. -/

/-- JavaScript `str.split('\n')`. -/
def splitNL : List Char → List (List Char)
  | [] => [[]]
  | c :: rest =>
    if c = '\n' then [] :: splitNL rest
    else
      match splitNL rest with
      | [] => [[c]]
      | l :: ls => (c :: l) :: ls

/-- `content.split('\n')` on strings. -/
def splitLines (s : String) : List String := (splitNL s.data).map String.mk

/-- JavaScript `s.startsWith(pre)`. -/
def strStartsWith (s pre : String) : Bool := pre.data.isPrefixOf s.data

/-- JavaScript `s.endsWith(suf)`. -/
def strEndsWith (s suf : String) : Bool := suf.data.isSuffixOf s.data

/-- JavaScript `s.trim()` (whitespace stripped from both ends). -/
def jsTrim (s : String) : String :=
  String.mk (((s.data.dropWhile Char.isWhitespace).reverse.dropWhile
    Char.isWhitespace).reverse)

/-- Trailing-whitespace removal on characters (JavaScript `trimEnd`). -/
def trimEndChars (cs : List Char) : List Char :=
  (cs.reverse.dropWhile Char.isWhitespace).reverse

/-- JavaScript `s.slice(n)` for a non-negative character index. -/
def strDrop (s : String) (n : Nat) : String := String.mk (s.data.drop n)

/-- One GitHub release asset: `name`, `id`, `created_at` (ms). -/
structure Asset where
  name : String
  id : Nat
  createdAt : Int
  deriving Repr, DecidableEq

/-- `24 * 60 * 60 * 1000` from src/storage/github-releases.js line 10. -/
def MS_PER_DAY : Nat := 24 * 60 * 60 * 1000

/-- Response of one asset-listing page request: a JSON asset array when
`resp.ok`, or a non-ok response. -/
inductive PageResp where
  | ok (assets : List Asset)
  | err
  deriving Repr, DecidableEq

/-- The `while (true)` loop of `_listAllAssets` (lines 299-319) starting at
a given page.  A non-ok response breaks out of the loop (returning what was
collected so far); an empty page or a page shorter than the fixed size 100
ends the listing.  `fuel` bounds the recursion; every run of the real loop
that terminates is reproduced with any sufficiently large fuel. -/
def listPagesFrom (pages : Nat → PageResp) : Nat → Nat → List Asset
  | 0, _ => []
  | fuel + 1, page =>
    match pages page with
    | .err => []
    | .ok assets =>
      if assets.length = 0 then []
      else if assets.length < 100 then assets
      else assets ++ listPagesFrom pages fuel (page + 1)

/-- `_listAllAssets()`: page through the asset listing starting at page 1. -/
def listAllAssets (pages : Nat → PageResp) (fuel : Nat) : List Asset :=
  listPagesFrom pages fuel 1

/-- The `while (true)` loop of `_findAsset` (lines 274-293) starting at a
given page: a non-ok response returns `null`, a page containing the name
returns the asset, a short or empty page without it returns `null`. -/
def findAssetFrom (pages : Nat → PageResp) (filename : String) :
    Nat → Nat → Option Asset
  | 0, _ => none
  | fuel + 1, page =>
    match pages page with
    | .err => none
    | .ok assets =>
      if assets.length = 0 then none
      else
        match assets.find? (fun a => a.name = filename) with
        | some a => some a
        | none =>
          if assets.length < 100 then none
          else findAssetFrom pages filename fuel (page + 1)

/-- `_findAsset(filename)`: search the paginated listing from page 1. -/
def findAsset (pages : Nat → PageResp) (filename : String) (fuel : Nat) :
    Option Asset :=
  findAssetFrom pages filename fuel 1

/-- `hasNar(filename)` (lines 202-205): `asset !== null`. -/
def ghHasNar (pages : Nat → PageResp) (filename : String) (fuel : Nat) : Bool :=
  (findAsset pages filename fuel).isSome

/-- The `URL:` extraction of `_getReferencedNarFilenames` for one narinfo
file's content (lines 341-347): for each line starting with `URL:`, take
the rest of the line, trim it, strip a leading `nar/`, and keep it if
nonempty. -/
def urlFieldFilenames (content : String) : List String :=
  (splitLines content).filterMap fun line =>
    if strStartsWith line "URL:" then
      let url := jsTrim (strDrop line 4)
      let filename := if strStartsWith url "nar/" then strDrop url 4 else url
      if filename ≠ "" then some filename else none
    else none

/-- `_getReferencedNarFilenames()` (lines 326-355) over the local narinfo
directory, given as a list of `(entry name, file content)` pairs: entries
not ending in `.narinfo` are skipped, and the referenced filenames of the
rest are collected (the JS `Set` is modelled as a list used only through
membership). -/
def getReferencedNarFilenames (files : List (String × String)) : List String :=
  (files.filter (fun f => strEndsWith f.1 ".narinfo")).flatMap
    (fun f => urlFieldFilenames f.2)

/-- The three result lists of `pruneAssets` (line 423). -/
structure PruneResult where
  deleted : List String
  kept : List String
  referenced : List String
  deriving Repr, DecidableEq

/-- The `for (const asset of assets)` loop of `pruneAssets`
(lines 388-419): skip `.narinfo` assets, report referenced assets, keep
orphaned assets inside the retention window (`createdAt >= cutoff`, with
`cutoff = none` when `retentionDays = 0`), and otherwise attempt deletion —
a successful DELETE response records the name in `deleted`, a failed one
in `kept`. -/
def withinRetention (cutoff : Option Int) (createdAt : Int) : Bool :=
  match cutoff with
  | some cut => decide (createdAt ≥ cut)
  | none => false

def pruneClassify (deleteOk : Nat → Bool) (referenced : List String)
    (cutoff : Option Int) : List Asset → PruneResult
  | [] => ⟨[], [], []⟩
  | a :: rest =>
    let r := pruneClassify deleteOk referenced cutoff rest
    if strEndsWith a.name ".narinfo" then r
    else if referenced.contains a.name then
      ⟨r.deleted, r.kept, a.name :: r.referenced⟩
    else if withinRetention cutoff a.createdAt then
      ⟨r.deleted, a.name :: r.kept, r.referenced⟩
    else if deleteOk a.id then ⟨a.name :: r.deleted, r.kept, r.referenced⟩
    else ⟨r.deleted, a.name :: r.kept, r.referenced⟩

/-- `pruneAssets({retentionDays})` (lines 370-424) applied to an asset
listing `assets` and local narinfo directory contents `files`, at time
`now` (ms) with per-asset-id DELETE outcomes `deleteOk`:
`cutoff = now - retentionDays * MS_PER_DAY` when `retentionDays > 0`,
otherwise no retention check. -/
def pruneAssetsOn (now : Int) (deleteOk : Nat → Bool) (assets : List Asset)
    (files : List (String × String)) (retentionDays : Nat) : PruneResult :=
  let referenced := getReferencedNarFilenames files
  let cutoff : Option Int :=
    if retentionDays > 0 then some (now - retentionDays * MS_PER_DAY) else none
  pruneClassify deleteOk referenced cutoff assets

/-- `pruneAssets` including its internal `_listAllAssets` call. -/
def pruneAssets (now : Int) (deleteOk : Nat → Bool) (pages : Nat → PageResp)
    (fuel : Nat) (files : List (String × String)) (retentionDays : Nat) :
    PruneResult :=
  pruneAssetsOn now deleteOk (listAllAssets pages fuel) files retentionDays

/-- Every name in any of the three result lists of `pruneClassify` is the
name of some processed asset. -/
theorem pruneClassify_mem_names (deleteOk : Nat → Bool) (referenced : List String)
    (cutoff : Option Int) (assets : List Asset) (s : String) :
    (s ∈ (pruneClassify deleteOk referenced cutoff assets).deleted
      ∨ s ∈ (pruneClassify deleteOk referenced cutoff assets).kept
      ∨ s ∈ (pruneClassify deleteOk referenced cutoff assets).referenced) →
    s ∈ assets.map Asset.name := by
  induction assets with
  | nil => simp [pruneClassify]
  | cons a rest ih =>
    intro h
    simp only [pruneClassify] at h
    by_cases h1 : strEndsWith a.name ".narinfo" <;>
      simp only [h1, if_true, if_false, Bool.false_eq_true, ite_true, ite_false] at h
    · exact List.mem_cons_of_mem _ (ih h)
    · by_cases h2 : referenced.contains a.name <;>
        simp only [h2, ite_true, ite_false, Bool.false_eq_true] at h
      · rcases h with h | h | h
        · exact List.mem_cons_of_mem _ (ih (Or.inl h))
        · exact List.mem_cons_of_mem _ (ih (Or.inr (Or.inl h)))
        · rcases List.mem_cons.mp h with h | h
          · simp [h]
          · exact List.mem_cons_of_mem _ (ih (Or.inr (Or.inr h)))
      · by_cases h4 : withinRetention cutoff a.createdAt <;>
          simp only [h4, ite_true, ite_false, Bool.false_eq_true] at h
        · rcases h with h | h | h
          · exact List.mem_cons_of_mem _ (ih (Or.inl h))
          · rcases List.mem_cons.mp h with h | h
            · simp [h]
            · exact List.mem_cons_of_mem _ (ih (Or.inr (Or.inl h)))
          · exact List.mem_cons_of_mem _ (ih (Or.inr (Or.inr h)))
        · by_cases h3 : deleteOk a.id <;>
            simp only [h3, ite_true, ite_false, Bool.false_eq_true] at h
          · rcases h with h | h | h
            · rcases List.mem_cons.mp h with h | h
              · simp [h]
              · exact List.mem_cons_of_mem _ (ih (Or.inl h))
            · exact List.mem_cons_of_mem _ (ih (Or.inr (Or.inl h)))
            · exact List.mem_cons_of_mem _ (ih (Or.inr (Or.inr h)))
          · rcases h with h | h | h
            · exact List.mem_cons_of_mem _ (ih (Or.inl h))
            · rcases List.mem_cons.mp h with h | h
              · simp [h]
              · exact List.mem_cons_of_mem _ (ih (Or.inr (Or.inl h)))
            · exact List.mem_cons_of_mem _ (ih (Or.inr (Or.inr h)))

/-- A name in the `deleted` list of `pruneClassify` is never in the
`referenced` set. -/
theorem pruneClassify_deleted_not_referenced (deleteOk : Nat → Bool)
    (referenced : List String) (cutoff : Option Int) (assets : List Asset)
    (s : String) (h : s ∈ (pruneClassify deleteOk referenced cutoff assets).deleted) :
    ¬ referenced.contains s := by
  induction assets with
  | nil => simp [pruneClassify] at h
  | cons a rest ih =>
    simp only [pruneClassify] at h
    by_cases h1 : strEndsWith a.name ".narinfo" <;>
      simp only [h1, ite_true, ite_false, Bool.false_eq_true] at h
    · exact ih h
    · by_cases h2 : referenced.contains a.name <;>
        simp only [h2, ite_true, ite_false, Bool.false_eq_true] at h
      · exact ih h
      · by_cases h4 : withinRetention cutoff a.createdAt <;>
          simp only [h4, ite_true, ite_false, Bool.false_eq_true] at h
        · exact ih h
        · by_cases h3 : deleteOk a.id <;>
            simp only [h3, ite_true, ite_false, Bool.false_eq_true] at h
          · rcases List.mem_cons.mp h with h | h
            · subst h; simpa using h2
            · exact ih h
          · exact ih h

/-- C1: an asset whose name is referenced by the `URL:` field of some
local narinfo record (after stripping a leading `nar/`) is never in the
`deleted` list of `pruneAssets`, for every listing, local directory state,
time, DELETE outcome and retention setting. -/
theorem pruneAssets_referenced_not_deleted (now : Int) (deleteOk : Nat → Bool)
    (pages : Nat → PageResp) (fuel : Nat) (files : List (String × String))
    (retentionDays : Nat) (name : String)
    (href : ∃ f ∈ files, strEndsWith f.1 ".narinfo" ∧ name ∈ urlFieldFilenames f.2) :
    name ∉ (pruneAssets now deleteOk pages fuel files retentionDays).deleted := by
  intro hdel
  have hmem : name ∈ getReferencedNarFilenames files := by
    obtain ⟨f, hf, hsuf, hurl⟩ := href
    unfold getReferencedNarFilenames
    exact List.mem_flatMap.mpr ⟨f, List.mem_filter.mpr ⟨hf, hsuf⟩, hurl⟩
  have hnc := pruneClassify_deleted_not_referenced _ _ _ _ _ hdel
  exact hnc (List.elem_iff.mpr hmem)

/-- Witness for C1: a one-page listing with a referenced and an orphaned
asset; the referenced one is not deleted. -/
theorem pruneAssets_referenced_not_deleted_witness :
    "referenced.nar.xz" ∉
      (pruneAssets 0 (fun _ => true)
        (fun p => if p = 1 then
            .ok [⟨"referenced.nar.xz", 10, 0⟩, ⟨"orphaned.nar.xz", 11, 0⟩]
          else .ok [])
        3
        [("abc.narinfo", "StorePath: /nix/store/abc\nURL: nar/referenced.nar.xz\n")]
        0).deleted := by
  exact pruneAssets_referenced_not_deleted 0 (fun _ => true) _ 3 _ 0
    "referenced.nar.xz"
    ⟨("abc.narinfo", "StorePath: /nix/store/abc\nURL: nar/referenced.nar.xz\n"),
      by simp, by decide, by decide⟩

/-- Fate of one orphaned non-narinfo asset under `pruneClassify`, when
asset names are unique in the listing (GitHub release asset names are
unique within a release): inside the retention window it is kept and not
deleted; outside it, with a successful DELETE, it is deleted. -/
theorem pruneClassify_orphan_cases (deleteOk : Nat → Bool) (referenced : List String)
    (cutoff : Option Int) (L : List Asset) (a : Asset)
    (ha : a ∈ L) (hnodup : (L.map Asset.name).Nodup)
    (hnar : strEndsWith a.name ".narinfo" = false)
    (horph : referenced.contains a.name = false) :
    (withinRetention cutoff a.createdAt = true →
      a.name ∈ (pruneClassify deleteOk referenced cutoff L).kept
      ∧ a.name ∉ (pruneClassify deleteOk referenced cutoff L).deleted)
    ∧ (withinRetention cutoff a.createdAt = false → deleteOk a.id = true →
      a.name ∈ (pruneClassify deleteOk referenced cutoff L).deleted) := by
  induction L with
  | nil => simp at ha
  | cons b rest ih =>
    rw [List.map_cons, List.nodup_cons] at hnodup
    obtain ⟨hbn, hnd⟩ := hnodup
    rcases List.mem_cons.mp ha with rfl | hmem
    · constructor
      · intro hw
        simp only [pruneClassify, hnar, horph, hw, Bool.false_eq_true, ite_true,
          ite_false]
        refine ⟨List.mem_cons_self _ _, ?_⟩
        intro hd
        exact hbn (pruneClassify_mem_names deleteOk referenced cutoff rest a.name
          (Or.inl hd))
      · intro hw hdel
        simp only [pruneClassify, hnar, horph, hw, hdel, Bool.false_eq_true,
          ite_true, ite_false]
        exact List.mem_cons_self _ _
    · have hanem : a.name ∈ rest.map Asset.name := List.mem_map_of_mem Asset.name hmem
      have hne : b.name ≠ a.name := fun he => hbn (he ▸ hanem)
      obtain ⟨ihw, ihd⟩ := ih hmem hnd
      simp only [pruneClassify]
      by_cases h1 : strEndsWith b.name ".narinfo" <;>
        simp only [h1, Bool.false_eq_true, ite_true, ite_false]
      · exact ⟨ihw, ihd⟩
      · by_cases h2 : referenced.contains b.name <;>
          simp only [h2, Bool.false_eq_true, ite_true, ite_false]
        · exact ⟨fun hw => ihw hw, fun hw hd => ihd hw hd⟩
        · by_cases h4 : withinRetention cutoff b.createdAt <;>
            simp only [h4, Bool.false_eq_true, ite_true, ite_false]
          · exact ⟨fun hw => ⟨List.mem_cons_of_mem _ (ihw hw).1, (ihw hw).2⟩,
              fun hw hd => ihd hw hd⟩
          · by_cases h3 : deleteOk b.id <;>
              simp only [h3, Bool.false_eq_true, ite_true, ite_false]
            · refine ⟨fun hw => ⟨(ihw hw).1, ?_⟩,
                fun hw hd => List.mem_cons_of_mem _ (ihd hw hd)⟩
              intro hc
              rcases List.mem_cons.mp hc with he | he
              · exact hne he.symm
              · exact (ihw hw).2 he
            · exact ⟨fun hw => ⟨List.mem_cons_of_mem _ (ihw hw).1, (ihw hw).2⟩,
                fun hw hd => ihd hw hd⟩

/-- C3: for an orphaned (non-referenced, non-`.narinfo`) asset in the
listing, whose DELETE call would succeed, and with unique asset names:
when `retentionDays > 0`, `pruneAssets` keeps the asset if its creation
time is at or after `now - retentionDays` days (boundary inclusive) and
deletes it if strictly older; when `retentionDays = 0` it is deleted
immediately. -/
theorem pruneAssets_retention_boundary (now : Int) (deleteOk : Nat → Bool)
    (pages : Nat → PageResp) (fuel : Nat) (files : List (String × String))
    (retentionDays : Nat) (a : Asset)
    (ha : a ∈ listAllAssets pages fuel)
    (hnodup : ((listAllAssets pages fuel).map Asset.name).Nodup)
    (hnar : strEndsWith a.name ".narinfo" = false)
    (horph : a.name ∉ getReferencedNarFilenames files)
    (hdel : deleteOk a.id = true) :
    (0 < retentionDays →
      (now - retentionDays * MS_PER_DAY ≤ a.createdAt →
        a.name ∈ (pruneAssets now deleteOk pages fuel files retentionDays).kept
        ∧ a.name ∉ (pruneAssets now deleteOk pages fuel files retentionDays).deleted)
      ∧ (a.createdAt < now - retentionDays * MS_PER_DAY →
        a.name ∈ (pruneAssets now deleteOk pages fuel files retentionDays).deleted))
    ∧ (retentionDays = 0 →
        a.name ∈ (pruneAssets now deleteOk pages fuel files retentionDays).deleted) := by
  have horphc : (getReferencedNarFilenames files).contains a.name = false := by
    by_contra hc
    exact horph (List.elem_iff.mp (Bool.not_eq_false _ ▸ Bool.of_not_eq_false hc))
  constructor
  · intro hrd
    constructor
    · intro hge
      have hw : withinRetention (some (now - retentionDays * MS_PER_DAY))
          a.createdAt = true := by
        simp [withinRetention, ge_iff_le, hge]
      have hc := (pruneClassify_orphan_cases deleteOk (getReferencedNarFilenames files)
        (some (now - retentionDays * MS_PER_DAY)) (listAllAssets pages fuel) a
        ha hnodup hnar horphc).1 hw
      simpa [pruneAssets, pruneAssetsOn, hrd] using hc
    · intro hlt
      have hw : withinRetention (some (now - retentionDays * MS_PER_DAY))
          a.createdAt = false := by
        simp [withinRetention, ge_iff_le]
        omega
      have hc := (pruneClassify_orphan_cases deleteOk (getReferencedNarFilenames files)
        (some (now - retentionDays * MS_PER_DAY)) (listAllAssets pages fuel) a
        ha hnodup hnar horphc).2 hw hdel
      simpa [pruneAssets, pruneAssetsOn, hrd] using hc
  · intro hrd
    subst hrd
    have hc := (pruneClassify_orphan_cases deleteOk (getReferencedNarFilenames files)
      none (listAllAssets pages fuel) a ha hnodup hnar horphc).2 rfl hdel
    simpa [pruneAssets, pruneAssetsOn] using hc

/-- Witness for C3 at the spec's boundary scenario: `retentionDays = 7`, an
orphan 10 days old is deleted, an orphan 1 day old is kept
(`now` = day 1000 in ms). -/
theorem pruneAssets_retention_boundary_witness :
    "old-orphan.nar.xz" ∈
      (pruneAssets 86400000000 (fun _ => true)
        (fun p => if p = 1 then
            PageResp.ok [⟨"old-orphan.nar.xz", 20, 85536000000⟩,
              ⟨"recent-orphan.nar.xz", 21, 86313600000⟩]
          else PageResp.ok [])
        3 [] 7).deleted
    ∧ "recent-orphan.nar.xz" ∈
      (pruneAssets 86400000000 (fun _ => true)
        (fun p => if p = 1 then
            PageResp.ok [⟨"old-orphan.nar.xz", 20, 85536000000⟩,
              ⟨"recent-orphan.nar.xz", 21, 86313600000⟩]
          else PageResp.ok [])
        3 [] 7).kept := by
  constructor
  · exact ((pruneAssets_retention_boundary 86400000000 (fun _ => true) _ 3 [] 7
      ⟨"old-orphan.nar.xz", 20, 85536000000⟩ (by decide) (by decide) (by decide)
      (by decide) (by decide)).1 (by decide)).2 (by decide)
  · exact (((pruneAssets_retention_boundary 86400000000 (fun _ => true) _ 3 [] 7
      ⟨"recent-orphan.nar.xz", 21, 86313600000⟩ (by decide) (by decide) (by decide)
      (by decide) (by decide)).1 (by decide)).1 (by decide)).1

/-- Concatenation of the asset pages `page, page+1, ..., page+n-1`. -/
def pagesConcat (A : Nat → List Asset) : Nat → Nat → List Asset
  | 0, _ => []
  | n + 1, page => A page ++ pagesConcat A n (page + 1)

/-- While every page responds with a full (100-item) page, the listing
loop collects them all and continues with the next page. -/
theorem listPagesFrom_full_prefix (pages : Nat → PageResp) (A : Nat → List Asset) :
    ∀ (n page fuel : Nat),
    (∀ i, page ≤ i → i < page + n → pages i = .ok (A i) ∧ (A i).length = 100) →
    listPagesFrom pages (n + fuel) page
      = pagesConcat A n page ++ listPagesFrom pages fuel (page + n)
  | 0, page, fuel, _ => by simp [pagesConcat]
  | n + 1, page, fuel, h => by
    have hp := h page (le_refl _) (by omega)
    have hrec := listPagesFrom_full_prefix pages A n (page + 1) fuel
      (fun i h1 h2 => h i (by omega) (by omega))
    rw [show n + 1 + fuel = (n + fuel) + 1 from by omega]
    simp only [listPagesFrom, hp.1, hp.2]
    rw [if_neg (by decide), if_neg (by decide), hrec]
    simp [pagesConcat, List.append_assoc,
      show page + (n + 1) = page + 1 + n from by omega]

/-- Counterexample oracle for C5: page 1 is a full page of 100 orphaned
assets, page 2 is a failed request. -/
def cexPages : Nat → PageResp :=
  fun p =>
    if p = 1 then .ok ((List.range 100).map (fun i => ⟨"a.nar", i, 0⟩))
    else .err

/-- Counterexample to C5 as stated: when page 2 of the asset listing
fails, `_listAllAssets` stops with only page 1 collected, and
`pruneAssets` proceeds on that partial listing — it deletes all 100
orphans from page 1 instead of failing. -/
theorem prune_partial_listing_cex :
    cexPages 2 = PageResp.err
    ∧ listAllAssets cexPages 5
        = (List.range 100).map (fun i => ⟨"a.nar", i, 0⟩)
    ∧ (pruneAssets 0 (fun _ => true) cexPages 5 [] 0).deleted.length = 100 := by
  refine ⟨rfl, by decide, by decide⟩

/-- C5 amended: the asset listing pages through all pages while a full
100-item page is returned, appending a final short successful page; but a
failed page request ends the listing with the pages collected so far, and
`pruneAssets` proceeds on that partial listing rather than failing. -/
theorem listing_pagination_behavior (pages : Nat → PageResp) (A : Nat → List Asset)
    (n fuel : Nat) (now : Int) (deleteOk : Nat → Bool)
    (files : List (String × String)) (retentionDays : Nat)
    (hfull : ∀ i, 1 ≤ i → i < 1 + n → pages i = .ok (A i) ∧ (A i).length = 100) :
    (∀ assets, pages (1 + n) = .ok assets → assets.length < 100 →
      assets.length ≠ 0 →
      listAllAssets pages (n + (fuel + 1)) = pagesConcat A n 1 ++ assets)
    ∧ (pages (1 + n) = .err →
        listAllAssets pages (n + (fuel + 1)) = pagesConcat A n 1
        ∧ pruneAssets now deleteOk pages (n + (fuel + 1)) files retentionDays
            = pruneAssetsOn now deleteOk (pagesConcat A n 1) files retentionDays) := by
  have hpref := listPagesFrom_full_prefix pages A n 1 (fuel + 1) hfull
  constructor
  · intro assets hok hshort hne
    rw [listAllAssets, hpref]
    simp only [listPagesFrom, hok]
    rw [if_neg hne, if_pos hshort]
  · intro herr
    have hnil : listPagesFrom pages (fuel + 1) (1 + n) = [] := by
      simp only [listPagesFrom, herr]
    constructor
    · rw [listAllAssets, hpref, hnil, List.append_nil]
    · rw [pruneAssets, listAllAssets, hpref, hnil, List.append_nil]

/-- Witness for the amended C5: with one full page and a failing page 2,
the listing is exactly page 1 and pruning runs on it. -/
theorem listing_pagination_behavior_witness :
    listAllAssets cexPages (1 + (3 + 1))
        = pagesConcat (fun _ => (List.range 100).map (fun i => ⟨"a.nar", i, 0⟩)) 1 1
    ∧ pruneAssets 0 (fun _ => true) cexPages (1 + (3 + 1)) [] 0
        = pruneAssetsOn 0 (fun _ => true)
            (pagesConcat (fun _ => (List.range 100).map (fun i => ⟨"a.nar", i, 0⟩)) 1 1)
            [] 0 := by
  exact (listing_pagination_behavior cexPages
      (fun _ => (List.range 100).map (fun i => ⟨"a.nar", i, 0⟩)) 1 3 0
      (fun _ => true) [] 0
      (by intro i h1 h2; interval_cases i <;> exact ⟨rfl, by decide⟩)).2 rfl

/-! ## Release resolution (`_getReleaseId`, lines 38-81) and
`putNarinfo` (lines 116-155) -/

/-- An HTTP API response: its status code and, for the release endpoints,
the `id` field of the JSON body.  `fetch`'s `resp.ok` is
`200 <= status < 300`. -/
structure ApiResp where
  status : Nat
  id : Nat
  deriving Repr, DecidableEq

def ApiResp.okb (r : ApiResp) : Bool := decide (200 ≤ r.status ∧ r.status < 300)

/-- The API calls `_getReleaseId` can issue. -/
inductive ApiCall where
  | lookupRelease
  | createRelease
  deriving Repr, DecidableEq

/-- Outcome of one `_getReleaseId()` call: the returned id or the thrown
error, the `_releaseId` field afterwards, and the API calls issued. -/
structure GetReleaseOutcome where
  result : Except Unit Nat
  cache : Option Nat
  calls : List ApiCall
  deriving Repr

/-- `_getReleaseId()` (lines 38-81).  `this._releaseId` starts as `null`
(`none`); the guard is JavaScript truthiness, so `null` and `0` both fail
it.  On a cache miss the release is looked up by tag; any non-ok lookup
response falls through to the create call; a non-ok create response
throws. -/
def getReleaseId (cache : Option Nat) (lookup create : ApiResp) :
    GetReleaseOutcome :=
  if cache.getD 0 ≠ 0 then ⟨.ok (cache.getD 0), cache, []⟩
  else if lookup.okb then ⟨.ok lookup.id, some lookup.id, [.lookupRelease]⟩
  else if create.okb then
    ⟨.ok create.id, some create.id, [.lookupRelease, .createRelease]⟩
  else ⟨.error (), cache, [.lookupRelease, .createRelease]⟩

/-- Counterexample to C9 as stated: the release is created on *any*
non-ok lookup response, not only on a not-found one — a lookup that fails
with status 500 still triggers the create call (which here succeeds with
id 7). -/
theorem getReleaseId_creates_on_non404_cex :
    (500 ≠ 404)
    ∧ getReleaseId none ⟨500, 9⟩ ⟨201, 7⟩
        = ⟨.ok 7, some 7, [.lookupRelease, .createRelease]⟩ := by
  exact ⟨by decide, rfl⟩

/-- C9 amended: the backend resolves its release tag at most once per
process lifetime — a successful resolution caches the id and every later
call returns it with no API interaction; resolution attempts the
lookup-by-tag first and issues the create call on any unsuccessful lookup
response (not only not-found); a failing create call propagates as an
error after exactly one create attempt (no retry). -/
theorem getReleaseId_resolution (lookup create lookup' create' : ApiResp) :
    (∀ rid : Nat, rid ≠ 0 →
      getReleaseId (some rid) lookup create = ⟨.ok rid, some rid, []⟩)
    ∧ ((getReleaseId none lookup create).calls.head? = some .lookupRelease)
    ∧ (lookup.okb = true → lookup.id ≠ 0 →
        getReleaseId none lookup create = ⟨.ok lookup.id, some lookup.id, [.lookupRelease]⟩
        ∧ getReleaseId (getReleaseId none lookup create).cache lookup' create'
            = ⟨.ok lookup.id, some lookup.id, []⟩)
    ∧ (lookup.okb = false → create.okb = true → create.id ≠ 0 →
        getReleaseId none lookup create
            = ⟨.ok create.id, some create.id, [.lookupRelease, .createRelease]⟩
        ∧ getReleaseId (getReleaseId none lookup create).cache lookup' create'
            = ⟨.ok create.id, some create.id, []⟩)
    ∧ (lookup.okb = false → create.okb = false →
        getReleaseId none lookup create
            = ⟨.error (), none, [.lookupRelease, .createRelease]⟩
        ∧ (getReleaseId none lookup create).calls.count .createRelease = 1) := by
  refine ⟨?_, ?_, ?_, ?_, ?_⟩
  · intro rid hrid
    simp [getReleaseId, hrid]
  · by_cases hl : lookup.okb <;> simp [getReleaseId, hl] <;>
      by_cases hc : create.okb <;> simp [hc]
  · intro hl hid
    refine ⟨by simp [getReleaseId, hl], ?_⟩
    simp [getReleaseId, hl, hid]
  · intro hl hc hid
    refine ⟨by simp [getReleaseId, hl, hc], ?_⟩
    simp [getReleaseId, hl, hc, hid]
  · intro hl hc
    refine ⟨by simp [getReleaseId, hl, hc], ?_⟩
    simp [getReleaseId, hl, hc, List.count_cons]

/-- Witness for the amended C9 at concrete responses: a 200 lookup with
id 42 resolves once, caches, and a second call issues no API calls. -/
theorem getReleaseId_resolution_witness :
    getReleaseId none ⟨200, 42⟩ ⟨201, 7⟩
        = ⟨.ok 42, some 42, [.lookupRelease]⟩
    ∧ getReleaseId (getReleaseId none ⟨200, 42⟩ ⟨201, 7⟩).cache ⟨500, 9⟩ ⟨500, 9⟩
        = ⟨.ok 42, some 42, []⟩ := by
  exact (getReleaseId_resolution ⟨200, 42⟩ ⟨201, 7⟩ ⟨500, 9⟩ ⟨500, 9⟩).2.2.1
    (by decide) (by decide)

/-- Observable effects of one `putNarinfo` call on the GitHub backend. -/
structure PutNarinfoTrace where
  localWritten : Bool
  deleteAttempted : Bool
  uploadWarned : Bool
  deriving Repr, DecidableEq

/-- `putNarinfo(hash, content)` of the GitHub backend (lines 116-155):
write the narinfo locally (a failed write rejects), resolve the release id
(a failed resolution rejects), look for an existing same-name asset, issue
a DELETE for it whose response is never inspected, then upload the new
asset — a non-ok upload response is only logged (`console.warn`), so the
call still resolves. -/
def ghPutNarinfo (localWriteOk : Bool) (cache : Option Nat)
    (lookup create : ApiResp) (pages : Nat → PageResp) (fuel : Nat)
    (deleteResp uploadResp : ApiResp) (filename : String) :
    Except Unit PutNarinfoTrace :=
  if localWriteOk = false then .error ()
  else
    match (getReleaseId cache lookup create).result with
    | .error _ => .error ()
    | .ok _rid =>
      let deleteAttempted := (findAsset pages filename fuel).isSome
      let _ := deleteResp
      .ok ⟨true, deleteAttempted, !uploadResp.okb⟩

/-- C10: on the GitHub backend, `putNarinfo` reports success whenever the
local narinfo write succeeds (and the release id resolves), for *every*
outcome of the remote mirror steps: an arbitrary (possibly failed) DELETE
response and an arbitrary (possibly failed) upload response never
propagate — a failed upload is merely warned about in the trace. -/
theorem putNarinfo_mirror_failures_not_propagated
    (cache : Option Nat) (lookup create : ApiResp) (pages : Nat → PageResp)
    (fuel : Nat) (deleteResp uploadResp : ApiResp) (filename : String)
    (hres : ∃ rid, (getReleaseId cache lookup create).result = .ok rid) :
    ghPutNarinfo true cache lookup create pages fuel deleteResp uploadResp filename
      = .ok ⟨true, (findAsset pages filename fuel).isSome, !uploadResp.okb⟩ := by
  obtain ⟨rid, hrid⟩ := hres
  simp [ghPutNarinfo, hrid]

/-- Witness for C10: with a cached release id and failing DELETE and
upload responses (status 500), `putNarinfo` still reports success. -/
theorem putNarinfo_mirror_failures_not_propagated_witness :
    ghPutNarinfo true (some 5) ⟨500, 0⟩ ⟨500, 0⟩ (fun _ => PageResp.err) 3
        ⟨500, 0⟩ ⟨500, 0⟩ "abc.narinfo"
      = .ok ⟨true, false, true⟩ := by
  exact putNarinfo_mirror_failures_not_propagated (some 5) ⟨500, 0⟩ ⟨500, 0⟩
    (fun _ => PageResp.err) 3 ⟨500, 0⟩ ⟨500, 0⟩ "abc.narinfo" ⟨5, rfl⟩

/-! ## Existence checks across backends (C4)

The local backend's `_exists` (LocalStorage lines 29-36, identical in the
GitHub backend lines 94-101) wraps `fsp.access` in a `try/catch` whose
`catch` clause catches *every* error.  The S3 backend's `hasNarinfo`
(S3Storage lines 29-40) distinguishes not-found errors and rethrows the
rest. -/

/-- Outcome of `fsp.access(filePath)`: success, or a rejection — the code
does not distinguish a not-found rejection from any other (transient)
rejection. -/
inductive FsOutcome where
  | accessible
  | notFound
  | transientError
  deriving Repr, DecidableEq

/-- `_exists(filePath)`: `try { await fsp.access(...); return true } catch
{ return false }` — every rejection, transient or not, becomes `false`. -/
def localExists : FsOutcome → Bool
  | .accessible => true
  | .notFound => false
  | .transientError => false

/-- `hasNarinfo(hash)` of the local backend, with the filesystem modelled
as a map from paths to `fsp.access` outcomes. -/
def localHasNarinfo (fs : String → FsOutcome) (root hash : String) : Bool :=
  localExists (fs (root ++ "/narinfo/" ++ hash ++ ".narinfo"))

/-- An error thrown by the S3 client: its `name` and
`$metadata.httpStatusCode`. -/
structure S3Error where
  name : String
  httpStatusCode : Nat
  deriving Repr, DecidableEq

/-- The not-found test of S3 `hasNarinfo`:
`err.name === 'NotFound' || err.$metadata?.httpStatusCode === 404`. -/
def s3IsNotFound (e : S3Error) : Bool :=
  e.name = "NotFound" || e.httpStatusCode = 404

/-- S3 `hasNarinfo(hash)` given the outcome of the `HeadObjectCommand`:
success means `true`, a not-found error means `false`, any other error is
rethrown. -/
def s3HasNarinfo (head : Except S3Error Unit) : Except S3Error Bool :=
  match head with
  | .ok _ => .ok true
  | .error e => if s3IsNotFound e then .ok false else .error e

/-- Counterexample to C4 as stated: transient existence-check failures are
*not* propagated on every backend — the local backend turns any filesystem
error into `false`, and the GitHub backend's `hasNar` returns `false` when
the asset-listing request fails, both indistinguishable from confirmed
absence. -/
theorem existence_check_coercion_cex :
    localExists FsOutcome.transientError = false
    ∧ ghHasNar (fun _ => PageResp.err) "abc.nar.xz" 5 = false
    ∧ localExists FsOutcome.notFound = false := by
  exact ⟨rfl, rfl, rfl⟩

/-- C4 amended: only the S3 backend propagates transient existence-check
failures as a distinct error (rethrowing any non-not-found error); the
local filesystem backend's existence check returns `false` on every
filesystem error, and the GitHub backend's `hasNar` returns `false`
whenever an asset-listing page request fails. -/
theorem existence_check_failure_modes :
    (∀ e : S3Error, s3IsNotFound e = false → s3HasNarinfo (.error e) = .error e)
    ∧ (∀ e : S3Error, s3IsNotFound e = true → s3HasNarinfo (.error e) = .ok false)
    ∧ (∀ r : FsOutcome, localExists r = true ↔ r = .accessible)
    ∧ (∀ (pages : Nat → PageResp) (filename : String) (fuel : Nat),
        pages 1 = .err → 0 < fuel → ghHasNar pages filename fuel = false) := by
  refine ⟨?_, ?_, ?_, ?_⟩
  · intro e he
    simp [s3HasNarinfo, he]
  · intro e he
    simp [s3HasNarinfo, he]
  · intro r
    cases r <;> simp [localExists]
  · intro pages filename fuel herr hfuel
    obtain ⟨f, rfl⟩ := Nat.exists_eq_succ_of_ne_zero (Nat.pos_iff_ne_zero.mp hfuel)
    simp [ghHasNar, findAsset, findAssetFrom, herr]

/-- Witness for the amended C4: a throttling error (not not-found) is
rethrown by S3, while the same kind of transient failure yields `false`
on the other two backends. -/
theorem existence_check_failure_modes_witness :
    s3HasNarinfo (.error ⟨"Throttling", 503⟩) = .error ⟨"Throttling", 503⟩
    ∧ ghHasNar (fun _ => PageResp.err) "x.nar.xz" 4 = false := by
  exact ⟨existence_check_failure_modes.1 ⟨"Throttling", 503⟩ (by decide),
    existence_check_failure_modes.2.2.2 (fun _ => PageResp.err) "x.nar.xz" 4
      rfl (by decide)⟩

/-! ## Upload re-signing (src/routes/cache.js `parseNarinfo`,
`addSignature`, lines 124-158) -/

/-- JavaScript `value.split(/\s+/).filter(Boolean)`: the maximal
non-whitespace runs of the string. -/
def wordsAux : List Char → List Char → List (List Char)
  | [], acc => if acc.isEmpty then [] else [acc.reverse]
  | c :: rest, acc =>
    if c.isWhitespace then
      if acc.isEmpty then wordsAux rest [] else acc.reverse :: wordsAux rest []
    else wordsAux rest (c :: acc)

def splitWhitespace (s : String) : List String :=
  (wordsAux s.data []).map String.mk

/-- JavaScript `parseInt(value, 10)` on an already-trimmed digit string:
the value of the leading digit run.  A non-numeric value gives `NaN` in
JavaScript; it is modelled as the default `0`, which no theorem below
observes. -/
def jsParseIntD (s : String) : Nat :=
  (s.data.takeWhile Char.isDigit).foldl (fun n c => n * 10 + (c.toNat - '0'.toNat)) 0

/-- One iteration of the `for (const line of text.split('\n'))` loop of
`parseNarinfo` (cache.js lines 127-138): split the line at its first
colon, trim key and value, and record `StorePath`, `NarHash`, `NarSize`
and `References` fields.  Fields never assigned keep their defaults
(`""`, `0`, `[]`); the JS object would hold `undefined` there, which no
theorem below observes. -/
def parseNarinfoStep (acc : Narinfo) (line : String) : Narinfo :=
  match splitFirstColon line.data with
  | none => acc
  | some (k, v) =>
    let key := jsTrim (String.mk k)
    let value := jsTrim (String.mk v)
    if key = "StorePath" then { acc with storePath := value }
    else if key = "NarHash" then { acc with narHash := value }
    else if key = "NarSize" then { acc with narSize := jsParseIntD value }
    else if key = "References" then
      { acc with references := acc.references ++ splitWhitespace value }
    else acc

/-- `parseNarinfo(text)` (cache.js lines 124-141). -/
def parseNarinfo (text : String) : Narinfo :=
  (splitLines text).foldl parseNarinfoStep ⟨"", "", 0, []⟩

/-- JavaScript `lines.join('\n')`. -/
def joinNL : List (List Char) → List Char
  | [] => []
  | [l] => l
  | l :: ls => l ++ '\n' :: joinNL ls

/-- `addSignature(content, signingKey)` (cache.js lines 149-158): sign the
parsed record, remove every line starting with `Sig:`, re-join, strip
trailing whitespace (`trimEnd`), and append `\nSig: <sig>\n`. -/
def addSignature (c : Crypto) (content signingKey : String) :
    Except SignError String :=
  match signNarinfo c (parseNarinfo content) signingKey with
  | .error e => .error e
  | .ok sig =>
    let lines := (splitNL content.data).filter
      (fun l => !("Sig:".data.isPrefixOf l))
    let trimmed := trimEndChars (joinNL lines)
    .ok (String.mk (trimmed ++ "\nSig: ".data ++ sig.data ++ ['\n']))

/-- Trailing-whitespace normalization of a line list: the effect of
JavaScript `trimEnd` on the `\n`-join, expressed line by line —
whitespace-only trailing lines disappear and the last surviving line loses
its trailing whitespace (`[[]]` is the join-of-nothing). -/
def trimLinesEnd : List (List Char) → List (List Char)
  | [] => [[]]
  | l :: ls =>
    let r := trimLinesEnd ls
    if r = [[]] then (if trimEndChars l = [] then [[]] else [trimEndChars l])
    else l :: r

/-! ### Split/join/trim algebra used to characterize `addSignature` -/

theorem trimEnd_append (x y : List Char) :
    trimEndChars (x ++ y)
      = if trimEndChars y = [] then trimEndChars x else x ++ trimEndChars y := by
  unfold trimEndChars
  rw [List.reverse_append, List.dropWhile_append]
  by_cases h : (List.dropWhile Char.isWhitespace y.reverse).isEmpty
  · rw [List.isEmpty_iff] at h
    simp [h]
  · rw [List.isEmpty_iff] at h
    have hy : (List.dropWhile Char.isWhitespace y.reverse).reverse ≠ [] := by
      simpa using h
    simp [h, hy, List.reverse_append]

theorem joinNL_cons (l : List Char) (ls : List (List Char)) (h : ls ≠ []) :
    joinNL (l :: ls) = l ++ '\n' :: joinNL ls := by
  cases ls with
  | nil => exact absurd rfl h
  | cons a as => simp [joinNL]

theorem joinNL_append (A B : List (List Char)) (hA : A ≠ []) (hB : B ≠ []) :
    joinNL (A ++ B) = joinNL A ++ '\n' :: joinNL B := by
  induction A with
  | nil => exact absurd rfl hA
  | cons a A' ih =>
    cases A' with
    | nil =>
      rw [List.singleton_append, joinNL_cons a B hB]
      simp [joinNL]
    | cons b bs =>
      have hne : b :: bs ≠ [] := by simp
      rw [List.cons_append, joinNL_cons a (b :: bs ++ B) (by simp),
        joinNL_cons a (b :: bs) hne, ih hne]
      simp

theorem trimLinesEnd_ne_nil (ls : List (List Char)) : trimLinesEnd ls ≠ [] := by
  cases ls with
  | nil => simp [trimLinesEnd]
  | cons l rest =>
    simp only [trimLinesEnd]
    by_cases h : trimLinesEnd rest = [[]] <;> simp [h]
    by_cases h2 : trimEndChars l = [] <;> simp [h2]

theorem trimEnd_cons_newline (z : List Char) :
    trimEndChars ('\n' :: z)
      = if trimEndChars z = [] then [] else '\n' :: trimEndChars z := by
  have h := trimEnd_append ['\n'] z
  simpa [trimEndChars] using h

/-- JavaScript `trimEnd` on a `\n`-join equals the `\n`-join of the
line-level normalization, and the normalization collapses to nothing
exactly when the joined text is all whitespace. -/
theorem trimEnd_join (ls : List (List Char)) :
    trimEndChars (joinNL ls) = joinNL (trimLinesEnd ls)
    ∧ (trimLinesEnd ls = [[]] ↔ trimEndChars (joinNL ls) = []) := by
  induction ls with
  | nil => simp [joinNL, trimLinesEnd, trimEndChars]
  | cons l rest ih =>
    obtain ⟨ihT, ihE⟩ := ih
    by_cases hnil : rest = []
    · subst hnil
      by_cases h : trimEndChars l = [] <;>
        simp [trimLinesEnd, joinNL, h]
    · rw [joinNL_cons l rest hnil]
      by_cases hE : trimEndChars (joinNL rest) = []
      · have hT : trimLinesEnd rest = [[]] := ihE.mpr hE
        have hx : trimEndChars (l ++ '\n' :: joinNL rest) = trimEndChars l := by
          rw [trimEnd_append l ('\n' :: joinNL rest), if_pos]
          rw [trimEnd_cons_newline, if_pos hE]
        constructor
        · rw [hx]
          simp only [trimLinesEnd, hT, if_pos rfl]
          by_cases h2 : trimEndChars l = [] <;> simp [h2, joinNL]
        · rw [hx]
          simp only [trimLinesEnd, hT, if_pos rfl]
          by_cases h2 : trimEndChars l = [] <;> simp [h2]
      · have hT : trimLinesEnd rest ≠ [[]] := fun h => hE (ihE.mp h)
        have hy : trimEndChars ('\n' :: joinNL rest) = '\n' :: trimEndChars (joinNL rest) := by
          rw [trimEnd_cons_newline, if_neg hE]
        have hx : trimEndChars (l ++ '\n' :: joinNL rest)
            = l ++ '\n' :: trimEndChars (joinNL rest) := by
          rw [trimEnd_append l ('\n' :: joinNL rest), if_neg]
          · rw [hy]
          · rw [hy]; simp
        constructor
        · rw [hx, ihT]
          simp only [trimLinesEnd, if_neg hT]
          rw [joinNL_cons l (trimLinesEnd rest) (trimLinesEnd_ne_nil rest)]
        · constructor
          · intro h
            simp only [trimLinesEnd, if_neg hT] at h
            have := trimLinesEnd_ne_nil rest
            simp at h
            exact absurd h.2 this
          · intro h
            rw [hx] at h
            simp at h

theorem splitNL_ne_nil (cs : List Char) : splitNL cs ≠ [] := by
  cases cs with
  | nil => simp [splitNL]
  | cons c rest =>
    simp only [splitNL]
    by_cases h : c = '\n'
    · simp [h]
    · rw [if_neg h]
      cases hsp : splitNL rest <;> simp

theorem splitNL_no_newline (cs : List Char) : ∀ l ∈ splitNL cs, '\n' ∉ l := by
  induction cs with
  | nil => simp [splitNL]
  | cons c rest ih =>
    intro l hl
    simp only [splitNL] at hl
    by_cases h : c = '\n'
    · rw [if_pos h] at hl
      rcases List.mem_cons.mp hl with rfl | hl
      · simp
      · exact ih l hl
    · rw [if_neg h] at hl
      cases hsp : splitNL rest with
      | nil => exact absurd hsp (splitNL_ne_nil rest)
      | cons l₀ ls₀ =>
        rw [hsp] at hl
        rcases List.mem_cons.mp hl with rfl | hl
        · intro hmem
          rcases List.mem_cons.mp hmem with rfl | hmem
          · exact h rfl
          · exact ih l₀ (hsp ▸ List.mem_cons_self _ _) hmem
        · exact ih l (hsp ▸ List.mem_cons_of_mem _ hl)

theorem splitNL_single (a : List Char) (h : '\n' ∉ a) : splitNL a = [a] := by
  induction a with
  | nil => simp [splitNL]
  | cons c rest ih =>
    have hc : ¬ c = '\n' := fun he => h (he ▸ List.mem_cons_self _ _)
    have hr : splitNL rest = [rest] := ih (fun hm => h (List.mem_cons_of_mem _ hm))
    simp only [splitNL, if_neg hc, hr]

theorem splitNL_append_nl (a b : List Char) (h : '\n' ∉ a) :
    splitNL (a ++ '\n' :: b) = a :: splitNL b := by
  induction a with
  | nil => simp [splitNL]
  | cons c rest ih =>
    have hc : ¬ c = '\n' := fun he => h (he ▸ List.mem_cons_self _ _)
    have hr := ih (fun hm => h (List.mem_cons_of_mem _ hm))
    simp only [List.cons_append, splitNL, if_neg hc]
    rw [show rest.append ('\n' :: b) = rest ++ '\n' :: b from rfl, hr]

theorem splitNL_joinNL (L : List (List Char)) (hne : L ≠ [])
    (hnl : ∀ l ∈ L, '\n' ∉ l) : splitNL (joinNL L) = L := by
  induction L with
  | nil => exact absurd rfl hne
  | cons l rest ih =>
    by_cases h : rest = []
    · subst h
      simp only [joinNL]
      exact splitNL_single l (hnl l (List.mem_cons_self _ _))
    · rw [joinNL_cons l rest h,
        splitNL_append_nl _ _ (hnl l (List.mem_cons_self _ _)),
        ih h (fun x hx => hnl x (List.mem_cons_of_mem _ hx))]

theorem trimEnd_prefix (l : List Char) : trimEndChars l <+: l := by
  unfold trimEndChars
  have h : List.dropWhile Char.isWhitespace l.reverse <:+ l.reverse :=
    List.dropWhile_suffix _
  have h2 := List.reverse_prefix.mpr h
  rwa [List.reverse_reverse] at h2

theorem trimLinesEnd_mem (L : List (List Char)) (l' : List Char)
    (h : l' ∈ trimLinesEnd L) : l' = [] ∨ ∃ l ∈ L, l' <+: l := by
  induction L with
  | nil => simp [trimLinesEnd] at h; exact Or.inl h
  | cons l rest ih =>
    simp only [trimLinesEnd] at h
    by_cases h1 : trimLinesEnd rest = [[]]
    · rw [if_pos h1] at h
      by_cases h2 : trimEndChars l = []
      · rw [if_pos h2] at h
        simp at h
        exact Or.inl h
      · rw [if_neg h2] at h
        simp at h
        exact Or.inr ⟨l, List.mem_cons_self _ _, h ▸ trimEnd_prefix l⟩
    · rw [if_neg h1] at h
      rcases List.mem_cons.mp h with rfl | h
      · exact Or.inr ⟨l', List.mem_cons_self _ _, List.prefix_refl _⟩
      · rcases ih h with h | ⟨x, hx, hp⟩
        · exact Or.inl h
        · exact Or.inr ⟨x, List.mem_cons_of_mem _ hx, hp⟩

theorem b64Char_ne_nl (n : Nat) : b64Char n ≠ '\n' := by
  unfold b64Char
  rcases Nat.lt_or_ge n 64 with h | h
  · interval_cases n <;> decide
  · rw [List.getD_eq_default]
    · decide
    · calc ("ABCDEFGHIJKLMNOPQRSTUVWXYZabcdefghijklmnopqrstuvwxyz0123456789+/".data).length
          = 64 := by decide
        _ ≤ n := h

theorem base64EncodeChars_no_nl : ∀ bs, '\n' ∉ base64EncodeChars bs
  | a :: b :: c :: rest => by
    have hr := base64EncodeChars_no_nl rest
    simp only [base64EncodeChars, List.mem_cons]
    rintro (h | h | h | h | h)
    · exact b64Char_ne_nl _ h.symm
    · exact b64Char_ne_nl _ h.symm
    · exact b64Char_ne_nl _ h.symm
    · exact b64Char_ne_nl _ h.symm
    · exact hr h
  | [a, b] => by
    simp only [base64EncodeChars, List.mem_cons]
    rintro (h | h | h | h)
    · exact b64Char_ne_nl _ h.symm
    · exact b64Char_ne_nl _ h.symm
    · exact b64Char_ne_nl _ h.symm
    · simp at h
  | [a] => by
    simp only [base64EncodeChars, List.mem_cons]
    rintro (h | h | h)
    · exact b64Char_ne_nl _ h.symm
    · exact b64Char_ne_nl _ h.symm
    · simp at h
  | [] => by simp [base64EncodeChars]

/-- A successful `signNarinfo` returns `<name before the first colon of
the key>:<base64 of the signature bytes>`. -/
theorem signNarinfo_ok_shape {c : Crypto} {n : Narinfo} {key sig : String}
    (hsig : signNarinfo c n key = .ok sig) :
    ∃ a b bytes, splitFirstColon key.data = some (a, b)
      ∧ sig = String.mk a ++ ":" ++ base64Encode bytes := by
  unfold signNarinfo at hsig
  cases hpk : parseKey key with
  | error e => rw [hpk] at hsig; simp at hsig
  | ok pk =>
    rw [hpk] at hsig
    simp only [] at hsig
    cases hse : createPrivateKeySeed
        (if pk.key.length = 64 then pk.key.take 32 else pk.key) with
    | error e => rw [hse] at hsig; simp at hsig
    | ok seed =>
      rw [hse] at hsig
      simp only [Except.ok.injEq] at hsig
      unfold parseKey at hpk
      cases hs : splitFirstColon key.data with
      | none => rw [hs] at hpk; simp at hpk
      | some ab =>
        rw [hs] at hpk
        simp only [Except.ok.injEq] at hpk
        refine ⟨ab.1, ab.2, c.edSign seed (fingerprint n), rfl, ?_⟩
        rw [← hsig, ← hpk]

/-- Every character of a `signNarinfo` signature comes from the key's
name part, the colon, or the base64 alphabet — so a key string without a
newline yields a signature without a newline. -/
theorem signNarinfo_no_newline {c : Crypto} {n : Narinfo} {key sig : String}
    (hsig : signNarinfo c n key = .ok sig) (hkey : '\n' ∉ key.data) :
    '\n' ∉ sig.data := by
  obtain ⟨a, b, bytes, hs, hshape⟩ := signNarinfo_ok_shape hsig
  have hdecomp := (splitFirstColon_some hs).2
  rw [hshape]
  simp only [String.data_append, base64Encode]
  intro hmem
  rcases List.mem_append.mp hmem with hmem | hmem
  · rcases List.mem_append.mp hmem with hmem | hmem
    · exact hkey (hdecomp ▸ List.mem_append_left _ hmem)
    · simp at hmem
  · exact base64EncodeChars_no_nl bytes hmem

/-- Counterexample to C8 as stated: for an upload with a trailing blank
line and no signature line, the persisted content is *not* the uploaded
text with (vacuously) the `Sig:` lines removed and one signature line
appended — `addSignature` also trims the trailing blank line. -/
theorem addSignature_claim_cex :
    addSignature cryptoStub "A: b\n\n"
        "k:AAAAAAAAAAAAAAAAAAAAAAAAAAAAAAAAAAAAAAAAAAA="
      = .ok "A: b\nSig: k:AQID\n"
    ∧ (splitNL ("A: b\n\n" : String).data).filter
        (fun l => !("Sig:".data.isPrefixOf l))
      = splitNL ("A: b\n\n" : String).data
    ∧ ("A: b\nSig: k:AQID\n" : String) ≠ "A: b\n\n" ++ "Sig: k:AQID\n" := by
  refine ⟨rfl, by decide, by decide⟩

/-- C8 amended: with a signing key configured (and signing succeeding),
the persisted content equals the uploaded text with every `Sig:`-prefixed
line removed and trailing whitespace trimmed, then exactly one newly
computed signature line appended as the last line, newline-terminated.
Line-by-line: the persisted lines are the non-`Sig:` lines of the upload
(normalized for trailing whitespace), then the signature line, then the
empty fragment of the final newline; exactly one persisted line carries a
`Sig:` tag. -/
theorem addSignature_resign_format (c : Crypto) (content signingKey sig : String)
    (hsig : signNarinfo c (parseNarinfo content) signingKey = .ok sig)
    (hkey : '\n' ∉ signingKey.data) :
    ∃ out, addSignature c content signingKey = .ok out
      ∧ out.data = trimEndChars (joinNL ((splitNL content.data).filter
            (fun l => !("Sig:".data.isPrefixOf l))))
          ++ "\nSig: ".data ++ sig.data ++ ['\n']
      ∧ splitNL out.data
          = trimLinesEnd ((splitNL content.data).filter
              (fun l => !("Sig:".data.isPrefixOf l)))
            ++ ["Sig: ".data ++ sig.data, []]
      ∧ (splitNL out.data).countP (fun l => "Sig:".data.isPrefixOf l) = 1 := by
  have hnl := signNarinfo_no_newline hsig hkey
  set stripped := (splitNL content.data).filter
    (fun l => !("Sig:".data.isPrefixOf l)) with hstr
  have hlines : splitNL (String.mk (trimEndChars (joinNL stripped)
        ++ "\nSig: ".data ++ sig.data ++ ['\n'])).data
      = trimLinesEnd stripped ++ ["Sig: ".data ++ sig.data, []] := by
    show splitNL (trimEndChars (joinNL stripped)
        ++ "\nSig: ".data ++ sig.data ++ ['\n'])
      = trimLinesEnd stripped ++ ["Sig: ".data ++ sig.data, []]
    have hT := (trimEnd_join stripped).1
    have hjoin2 : joinNL [("Sig: ".data ++ sig.data : List Char), ([] : List Char)]
        = "Sig: ".data ++ sig.data ++ ['\n'] := by
      simp [joinNL]
    have hre : trimEndChars (joinNL stripped) ++ "\nSig: ".data ++ sig.data ++ ['\n']
        = joinNL (trimLinesEnd stripped ++ [("Sig: ".data ++ sig.data : List Char), []]) := by
      rw [joinNL_append _ _ (trimLinesEnd_ne_nil stripped) (by simp), hjoin2, hT]
      show _ = joinNL (trimLinesEnd stripped) ++ '\n' :: ("Sig: ".data ++ sig.data ++ ['\n'])
      simp
    rw [hre]
    refine splitNL_joinNL _ (by simp) ?_
    intro l hl
    rcases List.mem_append.mp hl with hl | hl
    · rcases trimLinesEnd_mem _ _ hl with rfl | ⟨l₀, hl₀, hpre⟩
      · simp
      · have hl₀m : l₀ ∈ splitNL content.data := List.mem_of_mem_filter (hstr ▸ hl₀)
        exact fun hm => splitNL_no_newline content.data l₀ hl₀m (hpre.subset hm)
    · rcases List.mem_cons.mp hl with rfl | hl
      · intro hm
        rcases List.mem_append.mp hm with hm | hm
        · simp at hm
        · exact hnl hm
      · simp at hl
        subst hl
        simp
  refine ⟨String.mk (trimEndChars (joinNL stripped)
      ++ "\nSig: ".data ++ sig.data ++ ['\n']), ?_, rfl, hlines, ?_⟩
  · simp [addSignature, hsig]
  · rw [hlines, List.countP_append]
    have h0 : (trimLinesEnd stripped).countP (fun l => "Sig:".data.isPrefixOf l) = 0 := by
      rw [List.countP_eq_zero]
      intro l' hl'
      rcases trimLinesEnd_mem _ _ hl' with rfl | ⟨l₀, hl₀, hpre⟩
      · decide
      · intro hp
        have hfilt := List.of_mem_filter (hstr ▸ hl₀)
        have : "Sig:".data <+: l₀ :=
          (List.isPrefixOf_iff_prefix.mp hp).trans hpre
        rw [← List.isPrefixOf_iff_prefix] at this
        simp [this] at hfilt
    have h1 : List.countP (fun l => "Sig:".data.isPrefixOf l)
        [("Sig: ".data ++ sig.data : List Char), []] = 1 := by
      have hp : "Sig:".data.isPrefixOf ("Sig: ".data ++ sig.data) = true := by
        rw [List.isPrefixOf_iff_prefix]
        exact List.IsPrefix.trans (by decide) (List.prefix_append _ _)
      simp [List.countP_cons, hp]
    rw [h0, h1]

/-- Witness for the amended C8: an upload that already carries a
signature line gets it stripped, and the persisted content has exactly
one `Sig:` line. -/
theorem addSignature_resign_format_witness :
    ∃ out, addSignature cryptoStub "A: b\nSig: old\n"
        "k:AAAAAAAAAAAAAAAAAAAAAAAAAAAAAAAAAAAAAAAAAAA=" = .ok out
      ∧ (splitNL out.data).countP (fun l => "Sig:".data.isPrefixOf l) = 1 := by
  obtain ⟨out, h1, _h2, _h3, h4⟩ := addSignature_resign_format cryptoStub
    "A: b\nSig: old\n" "k:AAAAAAAAAAAAAAAAAAAAAAAAAAAAAAAAAAAAAAAAAAA="
    "k:AQID" rfl (by decide)
  exact ⟨out, h1, h4⟩

end StaticNixCache
